import Mathlib

/-!
Verification development for the relogger relay engine.

The definitions below are a shallow embedding of the three source modules
`config_parser.py`, `syslog.py` and `relogger.py`.  Python strings are
modelled as Lean `String` (lists of characters); Python string methods
(`split`, `strip`, `startswith`, slicing) are modelled by structurally
recursive functions on `List Char` so that every definition evaluates in
the kernel.  Python 2 `dict`s are modelled as association lists in
insertion order; Python 2 `set`s are modelled as duplicate-free lists in
first-insertion order (CPython iterates sets in hash order, which is not
derivable here; no theorem below depends on the modelled order of a set
beyond its membership).  Fallible Python code (raised exceptions) is
modelled with `Except`.
-/

namespace Relogger

/-! ### Python string primitives -/

/-- Model of Python `str.split(sep)` on a one-character separator:
`"a,,b".split(',') == ['a','','b']`, `"".split(',') == ['']`. -/
def splitOnChar (sep : Char) : List Char → List (List Char)
  | [] => [[]]
  | c :: cs =>
    match splitOnChar sep cs with
    | [] => [[]]
    | w :: ws => if c = sep then [] :: w :: ws else (c :: w) :: ws

/-- Characters stripped by Python `str.strip()` with no argument. -/
def isStripChar (c : Char) : Bool :=
  c = ' ' || c = '\t' || c = '\n' || c = '\r' || c = '\x0b' || c = '\x0c'

/-- Model of Python `str.strip()`. -/
def py_strip (s : String) : String :=
  (((s.toList.dropWhile isStripChar).reverse.dropWhile isStripChar).reverse).asString

/-- Split a string on a one-character separator, as Python `str.split(c)`. -/
def py_split (sep : Char) (s : String) : List String :=
  (splitOnChar sep s.toList).map List.asString

/-- Model of Python `c in s` for a one-character needle. -/
def py_contains (c : Char) (s : String) : Bool :=
  s.toList.contains c

/-- Model of the Python slice `s[:n]`. -/
def py_take (n : Nat) (s : String) : String :=
  (s.toList.take n).asString

/-- Model of Python `int()` restricted to non-negative digit strings
(the only shape reaching it here: port numbers already validated as
digit runs by the configuration layer). -/
def py_int (s : String) : Nat :=
  s.toList.foldl (fun a c => a * 10 + (c.toNat - 48)) 0

/-! ### Errors (`config_parser.conferr` and Python built-in `IndexError`) -/

/-- Exceptions raised by the configuration layer: `conferr(msg)` is the
single exception class of `config_parser.py`; `indexError` models the
built-in `IndexError` escaping `_get_abs_filepath` on an empty path. -/
inductive PyErr where
  | conferr (msg : String)
  | indexError
deriving DecidableEq

instance {ε α : Type} [DecidableEq ε] [DecidableEq α] : DecidableEq (Except ε α) := fun x y =>
  match x, y with
  | .ok a, .ok b =>
    if h : a = b then isTrue (by rw [h]) else isFalse (by simp [h])
  | .error e, .error f =>
    if h : e = f then isTrue (by rw [h]) else isFalse (by simp [h])
  | .ok _, .error _ => isFalse (by simp)
  | .error _, .ok _ => isFalse (by simp)

/-! ### `config_parser.valid_hostname` -/

/-- One octet of the IPv4 regex alternation
`[0-9]|[1-9][0-9]|1[0-9]{2}|2[0-4][0-9]|25[0-5]` (no leading zeros). -/
def isOctet : List Char → Bool
  | [a] => a.isDigit
  | [a, b] => (decide ('1' ≤ a) && decide (a ≤ '9')) && b.isDigit
  | [a, b, c] =>
      (a = '1' && b.isDigit && c.isDigit) ||
      (a = '2' && (decide ('0' ≤ b) && decide (b ≤ '4')) && c.isDigit) ||
      (a = '2' && b = '5' && (decide ('0' ≤ c) && decide (c ≤ '5')))
  | _ => false

/-- The body of the regex `validIP` (between `^` and `$`): four
dot-separated octets.  Splitting on `'.'` is equivalent because octets
contain no dots. -/
def ip_body (l : List Char) : Bool :=
  let parts := splitOnChar '.' l
  parts.length = 4 && parts.all isOctet

/-- Python `re`'s `$` anchor (no MULTILINE): an anchored `^body$` pattern
matches a string when the body matches the whole string, or the whole
string minus a single trailing newline (`$` also matches just before a
newline at the end of the string). -/
def py_dollar_match (body : List Char → Bool) (l : List Char) : Bool :=
  body l || (if l.getLast? = some '\n' then body l.dropLast else false)

/-- The regex `validIP`, anchored with `^`/`$`: the octet body matched
against the whole string, tolerating one trailing newline (so
`"1.2.3.4\n"` is accepted, as Python `re.match` accepts it). -/
def valid_ip (s : String) : Bool :=
  py_dollar_match ip_body s.toList

/-- A character of the inner class `[a-zA-Z0-9\-]` of the hostname regex. -/
def isLabelChar (c : Char) : Bool :=
  c.isAlphanum || c = '-'

/-- One label of the hostname regex alternation
`[a-zA-Z0-9]|[a-zA-Z0-9][a-zA-Z0-9\-]*[a-zA-Z0-9]`: a single alphanumeric
character, or alphanumerics at both ends with alphanumeric/hyphen inside. -/
def isLabel : List Char → Bool
  | [] => false
  | c :: cs =>
    match cs.getLast? with
    | none => c.isAlphanum
    | some d => c.isAlphanum && d.isAlphanum && cs.dropLast.all isLabelChar

/-- The body of the regex `validHN` (between `^` and `$`):
`(label\.)*label`; equivalently every dot-separated component is a label
(labels contain no dots). -/
def hn_body (l : List Char) : Bool :=
  (splitOnChar '.' l).all isLabel

/-- The regex `validHN`, anchored with `^`/`$`: the label body matched
against the whole string, tolerating one trailing newline (so `"a\n"` is
accepted, as Python `re.match` accepts it). -/
def valid_hn (s : String) : Bool :=
  py_dollar_match hn_body s.toList

/-- `config_parser.valid_hostname`: the truthiness of
`ipregex.match(hostname) or hnregex.match(hostname)`. -/
def valid_hostname (s : String) : Bool :=
  valid_ip s || valid_hn s

/-! ### `RLConfig` host and path helpers -/

/-- `RLConfig.PORT`. -/
def PORT : Nat := 514

/-- Python 2 `set.add` modelled on an insertion-ordered duplicate-free
list: a no-op when the element is already present. -/
def pyOrderedSetAdd (l : List String) (x : String) : List String :=
  if x ∈ l then l else l ++ [x]

/-- Python 2 `set(v)` for a list `v`, modelled in first-insertion order. -/
def pySetOfList (v : List String) : List String :=
  v.foldl pyOrderedSetAdd []

/-- The name part `h.split(':')[0]` of a host token. -/
def name_part (h : String) : String :=
  (py_split ':' h).headD ""

/-- The token added to the result set by `_get_hosts_from_names`:
`h if ':' in h else '%s:%d' % (h, self.PORT)`. -/
def canon_host (h : String) : String :=
  if py_contains ':' h then h else h ++ ":" ++ Nat.repr PORT

/-- The validation loop of `_get_hosts_from_names` over the stripped
tokens, accumulating the result set and raising on the first token whose
name part fails `valid_hostname`. -/
def hosts_loop (acc : List String) : List String → Except PyErr (List String)
  | [] => .ok acc
  | h :: rest =>
    if valid_hostname (name_part h) then
      hosts_loop (pyOrderedSetAdd acc (canon_host h)) rest
    else
      .error (PyErr.conferr ("Invalid hostname: " ++ name_part h))

/-- `RLConfig._get_hosts_from_names`: split on commas, strip each token,
validate, default the port to 514, return the set as a list. -/
def get_hosts_from_names (names : String) : Except PyErr (List String) :=
  hosts_loop [] ((py_split ',' names).map py_strip)

/-- The slice `ifile[7:] if ifile.startswith('file://') else ifile`. -/
def drop_file_scheme (s : String) : String :=
  match s.toList with
  | 'f' :: 'i' :: 'l' :: 'e' :: ':' :: '/' :: '/' :: rest => rest.asString
  | _ => s

/-- Whether a string starts with `file://` (Python `startswith`). -/
def starts_with_file_scheme (s : String) : Bool :=
  match s.toList with
  | 'f' :: 'i' :: 'l' :: 'e' :: ':' :: '/' :: '/' :: _ => true
  | _ => false

/-- `os.path.join(a, b)` for a second argument not starting with `/`
(the only case reached by `_get_abs_filepath`). -/
def ospath_join (a b : String) : String :=
  if a = "" then b
  else if a.toList.getLast? = some '/' then a ++ b
  else a ++ "/" ++ b

/-- `RLConfig._get_abs_filepath`, with `basedir` standing for
`os.path.abspath(os.path.dirname(self.config_file))`.  Indexing `ifile[0]`
on an empty stripped path raises `IndexError`. -/
def get_abs_filepath (basedir : String) (ifile : String) : Except PyErr String :=
  let f := drop_file_scheme ifile
  match f.toList with
  | [] => .error PyErr.indexError
  | c :: _ =>
    if c = '/' then .ok ("file://" ++ f)
    else .ok ("file://" ++ ospath_join basedir f)

/-! ### `RLConfig._get_section_values` and flow-table assembly -/

/-- The raw option values of one configuration section (rule descriptor):
`src.host`, `src.file`, `dst.host`, `dst.file`, each absent or a string. -/
structure SectionOpts where
  src_host : Option String
  src_file : Option String
  dst_host : Option String
  dst_file : Option String
deriving DecidableEq

/-- The resolved 4-tuple `(src_host, src_file, dst_host, dst_file)`
returned by `_get_section_values`. -/
structure Fields where
  src_host : Option (List String)
  src_file : Option (List String)
  dst_host : Option (List String)
  dst_file : Option (List String)
deriving DecidableEq

/-- Resolve an optional `*.host` value, as in
`self._get_hosts_from_names(config.get(...)) if has_option else None`. -/
def opt_hosts : Option String → Except PyErr (Option (List String))
  | none => .ok none
  | some v => (get_hosts_from_names v).map some

/-- Resolve an optional `*.file` value, as in
`[self._get_abs_filepath(config.get(...))] if has_option else None`. -/
def opt_file (basedir : String) : Option String → Except PyErr (Option (List String))
  | none => .ok none
  | some v => (get_abs_filepath basedir v).map (fun p => some [p])

/-- `RLConfig._get_section_values`: resolve the four option values in
source order, raising when the section has no source or no destination.
Note that a section with BOTH `src.host` and `src.file` present raises
nothing: only the absence of both is an error. -/
def get_section_values (basedir : String) (sname : String) (sec : SectionOpts) :
    Except PyErr Fields := do
  let sh ← opt_hosts sec.src_host
  let sf ← opt_file basedir sec.src_file
  if sh = none ∧ sf = none then
    .error (PyErr.conferr ("Section \"" ++ sname ++ "\" gets no sources"))
  else do
    let dh ← opt_hosts sec.dst_host
    let df ← opt_file basedir sec.dst_file
    if dh = none ∧ df = none then
      .error (PyErr.conferr ("Section \"" ++ sname ++ "\" gets no destinations"))
    else
      .ok ⟨sh, sf, dh, df⟩

/-- `values[0] + values[1]` of `_assemble_flowtable` after the `None → []`
normalization: the rule's source keys. -/
def src_list (f : Fields) : List String :=
  f.src_host.getD [] ++ f.src_file.getD []

/-- `values[2] + values[3]` of `_assemble_flowtable`: the rule's
destination list. -/
def dst_list (f : Fields) : List String :=
  f.dst_host.getD [] ++ f.dst_file.getD []

/-- Lookup in a Python 2 `dict` modelled as an insertion-ordered
association list. -/
def alLookup (k : String) : List (String × List String) → Option (List String)
  | [] => none
  | p :: ps => if p.1 = k then some p.2 else alLookup k ps

/-- Overwrite the value stored at an existing key. -/
def alUpdate (k : String) (v : List String) :
    List (String × List String) → List (String × List String)
  | [] => []
  | p :: ps => (if p.1 = k then (k, v) else p) :: alUpdate k v ps

/-- Python 2 `d[k] = v`: overwrite when the key is present, otherwise
append a new entry (insertion order). -/
def pyDictInsert (d : List (String × List String)) (k : String) (v : List String) :
    List (String × List String) :=
  match alLookup k d with
  | some _ => alUpdate k v d
  | none => d ++ [(k, v)]

/-- `RLConfig._assemble_flowtable`: every source key of the rule maps to
the rule's whole destination list. -/
def assemble_flowtable (f : Fields) : List (String × List String) :=
  (src_list f).foldl (fun t s => pyDictInsert t s (dst_list f)) []

/-- The merge step of the `RLConfig.flowtable` property for one entry
`(k, v)` of a per-rule table: `ftable[k] = set(v)` for a fresh key,
otherwise `ftable[k].add(i) for i in v`. -/
def mergeInto (ft : List (String × List String)) (k : String) (v : List String) :
    List (String × List String) :=
  match alLookup k ft with
  | none => ft ++ [(k, pySetOfList v)]
  | some cur => alUpdate k (v.foldl pyOrderedSetAdd cur) ft

/-- The `RLConfig.flowtable` property: merge all per-rule tables into one
map, collecting each key's destinations into a set (the trailing
`list(set)` conversion is the identity in this model, where sets are
already insertion-ordered lists). -/
def flowtable (tables : List (List (String × List String))) :
    List (String × List String) :=
  tables.foldl (fun ft t => t.foldl (fun ft2 p => mergeInto ft2 p.1 p.2) ft) []

/-- `RLConfig._detect_loop`: walk the merged flow table and raise on the
first key that occurs in its own destination list. -/
def detect_loop : List (String × List String) → Except PyErr Unit
  | [] => .ok ()
  | p :: ps =>
    if p.1 ∈ p.2 then
      .error (PyErr.conferr ("Loops detected: " ++ p.1 ++ " --> " ++ p.1))
    else detect_loop ps

/-- The section-reading loop of `RLConfig.__init__` (configuration-file
path): resolve each section in order and collect the per-rule tables. -/
def parse_tables (basedir : String) (sections : List (String × SectionOpts)) :
    Except PyErr (List (List (String × List String))) :=
  sections.foldlM
    (fun acc s => (get_section_values basedir s.1 s.2).map
      (fun f => acc ++ [assemble_flowtable f]))
    []

/-- `RLConfig.__init__` on a configuration file: build all per-rule
tables, then run loop detection on the merged flow table.  A successful
construction yields the list of per-rule tables (`self.flow_table`). -/
def rlconfig_build (basedir : String) (sections : List (String × SectionOpts)) :
    Except PyErr (List (List (String × List String))) := do
  let tables ← parse_tables basedir sections
  match detect_loop (flowtable tables) with
  | .error e => .error e
  | .ok _ => .ok tables

/-! ### `syslog.py`: the packet codec -/

/-- `Packet.MAX_LEN`. -/
def MAX_LEN : Nat := 1024

/-- `MSG.MAX_TAG_LEN`. -/
def MAX_TAG_LEN : Nat := 32

/-- `PRI.__str__`: `"<%s>" % (self.facility + self.severity)` — note the
two fields are ADDED, not combined as RFC 3164's `facility*8 + severity`. -/
def pri_str (facility severity : Nat) : String :=
  "<" ++ Nat.repr (facility + severity) ++ ">"

/-- `HEADER.__str__`: `"%s %s" % (self.timestamp, self.hostname)`, on the
stored timestamp and hostname values (the setters' substitution of the
current local time / local hostname is time- and machine-dependent and is
not modelled; the claims below do not depend on it). -/
def header_str (timestamp hostname : String) : String :=
  timestamp ++ " " ++ hostname

/-- The `MSG.tag` setter: default to `sys.argv[0]`, truncate to 32. -/
def msg_tag (tag : Option String) (argv0 : String) : String :=
  py_take MAX_TAG_LEN (tag.getD argv0)

/-- `MSG._prepend_seperator`: prepend `": "` exactly when the content is
non-empty and its first character is alphanumeric. -/
def prepend_seperator (value : String) : String :=
  match value.toList with
  | [] => value
  | c :: _ => if c.isAlphanum then ": " ++ value else value

/-- `MSG.__str__` on the stored tag and (already separator-prepended)
content: insert `"[pid]"` before the content when a pid is present. -/
def msg_str (tag content : String) (pid : Option Nat) : String :=
  match pid with
  | some p => tag ++ ("[" ++ Nat.repr p ++ "]" ++ content)
  | none => tag ++ content

/-- `Packet.__str__`: `("%s%s %s" % (self.pri, self.header, self.msg))`
truncated to `MAX_LEN` — PRI and HEADER are adjacent with NO space. -/
def packet_str (pri header msg : String) : String :=
  py_take MAX_LEN (pri ++ header ++ " " ++ msg)

/-- `Syslog.PORT`. -/
def Syslog_PORT : Nat := 514

/-- The destination address computed by `_send_packet_to_hosts` for one
registered hostname: `hostname.split(':')` into host and port when a
colon is present, else the default port 514.  (`int()` failures and
tuples of more than two parts are unreachable for hostnames produced by
the configuration layer and are not modelled.) -/
def parse_dest (hostname : String) : String × Nat :=
  if py_contains ':' hostname then
    let parts := py_split ':' hostname
    (parts.headD "", py_int ((parts.drop 1).headD ""))
  else (hostname, Syslog_PORT)

/-- `Syslog._send_packet_to_hosts`: one UDP datagram per registered
hostname, whose body is `str(packet)`.  The `packet` argument is already
a string here because that is what `RLServer._message_consumer` passes
(`str` of a Python 2 `str` is the identity). -/
def send_packet_to_hosts (hostnames : List String) (packet : String) :
    List ((String × Nat) × String) :=
  hostnames.map (fun hn => (parse_dest hn, packet))

/-! ### `relogger.py`: the dispatch engine -/

/-- The network half of `RLServer._message_consumer` for one popped
message: `logger.send_packet(data)`.  The guard `logger.host_number > 0`
compares a bound method with an integer and is always true in Python 2,
so the send call is unconditional (with zero registered hosts the send
loop simply sends nothing).  The datagram bodies are therefore the bare
payload: no `Packet` is ever constructed on this path. -/
def message_consumer_net (hostnames : List String) (data : String) :
    List ((String × Nat) × String) :=
  send_packet_to_hosts hostnames data

/-- Python `str.replace('file://', '')`: remove every (non-overlapping,
left-to-right) occurrence of the scheme, as used on sink paths by the
`RLServer.flowtable` setter. -/
def remove_file_scheme : List Char → List Char
  | 'f' :: 'i' :: 'l' :: 'e' :: ':' :: '/' :: '/' :: rest => remove_file_scheme rest
  | c :: cs => c :: remove_file_scheme cs
  | [] => []

/-- File open modes used by `relogger.py` (`'wb'` truncates, `'ab'` would
append, `'rb'` reads). -/
inductive PyFileMode where
  | wb
  | ab
  | rb
deriving DecidableEq

/-- The initial content visible through a handle freshly opened on a file
whose current content is `existing`: `'wb'` truncates. -/
def py_open_content : PyFileMode → String → String
  | .wb, _ => ""
  | .ab, existing => existing
  | .rb, existing => existing

/-- The `RLServer.flowtable` setter for one destination list: `file://`
destinations become sink file handles opened with `open(path, 'wb')`, in
list order; other destinations are `add_host`ed into the logger's host
dict (keys, insertion-ordered and deduplicated). -/
def build_sink (dests : List String) : List String × List (String × PyFileMode) :=
  dests.foldl
    (fun acc d =>
      if starts_with_file_scheme d then
        (acc.1, acc.2 ++ [((remove_file_scheme d.toList).asString, PyFileMode.wb)])
      else (pyOrderedSetAdd acc.1 d, acc.2))
    ([], [])

/-- The file half of `RLServer._message_consumer` applied to a whole
sequence of popped payloads: each write appends `data + '\n'` to the
handle and flushes, so the handle content after the sequence is the fold
of the writes over the content seen at open time. -/
def consumer_file_writes (initial : String) (payloads : List String) : String :=
  payloads.foldl (fun acc d => acc ++ d ++ "\n") initial

/-- Content of a sink file after the consumer has dispatched `payloads`
to a handle opened with the given mode on previous content `existing`. -/
def sink_file_content (mode : PyFileMode) (existing : String) (payloads : List String) :
    String :=
  consumer_file_writes (py_open_content mode existing) payloads

/-! ### Concrete demo configurations used by witnesses -/

/-- A two-rule configuration forming a transitive cycle a → b → a with no
direct self-loop (exercises the documented loop-detection limitation). -/
def sections_cycle : List (String × SectionOpts) :=
  [("r1", ⟨some "a", none, some "b", none⟩), ("r2", ⟨some "b", none, some "a", none⟩)]

/-- The per-rule tables produced by `sections_cycle`. -/
def tables_cycle : List (List (String × List String)) :=
  [[("a:514", ["b:514"])], [("b:514", ["a:514"])]]

/-- A one-rule configuration whose source is its own direct destination. -/
def sections_selfloop : List (String × SectionOpts) :=
  [("r1", ⟨some "a", none, some "a", none⟩)]

/-- The per-rule tables produced by `sections_selfloop`. -/
def tables_selfloop : List (List (String × List String)) :=
  [[("a:514", ["a:514"])]]

/-- A one-rule demo configuration: one socket source, one network and one
file destination. -/
def sections_demo : List (String × SectionOpts) :=
  [("rule1", ⟨some "localhost:514", none, some "localhost:666", some "out.dat"⟩)]

/-- The per-rule tables produced by `sections_demo` with basedir `/etc`. -/
def tables_demo : List (List (String × List String)) :=
  [[("localhost:514", ["localhost:666", "file:///etc/out.dat"])]]

/-- Demo resolved fields: source port 514, one network destination. -/
def fields_demo : Fields :=
  ⟨some ["localhost:514"], none, some ["10.0.0.1:514"], none⟩

/-! ### Routing relation and helper lemmas -/

/-- `routes ft k d`: the merged flow table `ft` sends messages arriving
on source key `k` to destination `d`. -/
def routes (ft : List (String × List String)) (k d : String) : Prop :=
  ∃ v, alLookup k ft = some v ∧ d ∈ v

theorem alLookup_alUpdate_ne (k k' : String) (v : List String)
    (ft : List (String × List String)) (h : k' ≠ k) :
    alLookup k' (alUpdate k v ft) = alLookup k' ft := by
  induction ft with
  | nil => rfl
  | cons p ps ih =>
    by_cases hp : p.1 = k
    · simp [alUpdate, alLookup, hp, Ne.symm h, ih]
    · simp only [alUpdate, alLookup, if_neg hp]
      by_cases hp' : p.1 = k'
      · simp [hp']
      · simp [hp', ih]

theorem alLookup_alUpdate_eq (k : String) (v w : List String)
    (ft : List (String × List String)) (h : alLookup k ft = some w) :
    alLookup k (alUpdate k v ft) = some v := by
  induction ft with
  | nil => simp [alLookup] at h
  | cons p ps ih =>
    by_cases hp : p.1 = k
    · simp [alUpdate, alLookup, hp]
    · simp only [alLookup, if_neg hp] at h
      simp [alUpdate, alLookup, if_neg hp, ih h]

theorem alLookup_append_single (k k' : String) (v : List String)
    (ft : List (String × List String)) :
    alLookup k' (ft ++ [(k, v)]) =
      match alLookup k' ft with
      | some w => some w
      | none => if k = k' then some v else none := by
  induction ft with
  | nil => simp [alLookup]
  | cons p ps ih =>
    by_cases hp : p.1 = k'
    · simp [alLookup, hp]
    · simp [alLookup, hp, ih]

theorem mem_pyOrderedSetAdd (l : List String) (x d : String) :
    d ∈ pyOrderedSetAdd l x ↔ d ∈ l ∨ d = x := by
  by_cases h : x ∈ l
  · simp only [pyOrderedSetAdd, if_pos h]
    constructor
    · exact fun hd => Or.inl hd
    · rintro (hd | rfl)
      · exact hd
      · exact h
  · simp [pyOrderedSetAdd, if_neg h]

theorem mem_foldl_pyOrderedSetAdd (v acc : List String) (d : String) :
    d ∈ v.foldl pyOrderedSetAdd acc ↔ d ∈ acc ∨ d ∈ v := by
  induction v generalizing acc with
  | nil => simp
  | cons x xs ih =>
    simp only [List.foldl_cons, ih, mem_pyOrderedSetAdd, List.mem_cons]
    tauto

theorem mem_pySetOfList (v : List String) (d : String) :
    d ∈ pySetOfList v ↔ d ∈ v := by
  simp [pySetOfList, mem_foldl_pyOrderedSetAdd]

theorem alLookup_append_single_ne (k k' : String) (v : List String)
    (ft : List (String × List String)) (h : k ≠ k') :
    alLookup k' (ft ++ [(k, v)]) = alLookup k' ft := by
  rw [alLookup_append_single]
  cases alLookup k' ft <;> simp [h]

theorem alLookup_append_single_eq (k : String) (v : List String)
    (ft : List (String × List String)) (h : alLookup k ft = none) :
    alLookup k (ft ++ [(k, v)]) = some v := by
  rw [alLookup_append_single, h]
  simp

theorem alLookup_mergeInto (ft : List (String × List String)) (k : String)
    (v : List String) (k' : String) :
    alLookup k' (mergeInto ft k v) =
      if k' = k then
        some (match alLookup k ft with
              | none => pySetOfList v
              | some cur => v.foldl pyOrderedSetAdd cur)
      else alLookup k' ft := by
  unfold mergeInto
  cases halk : alLookup k ft with
  | none =>
    by_cases hk : k' = k
    · subst hk
      rw [alLookup_append_single_eq _ _ _ halk, if_pos rfl]
    · rw [alLookup_append_single_ne _ _ _ _ (Ne.symm hk), if_neg hk]
  | some cur =>
    by_cases hk : k' = k
    · subst hk
      rw [alLookup_alUpdate_eq _ _ cur _ halk, if_pos rfl]
    · rw [alLookup_alUpdate_ne _ _ _ _ hk, if_neg hk]

theorem routes_mergeInto (ft : List (String × List String)) (k k' d : String)
    (v : List String) :
    routes (mergeInto ft k v) k' d ↔ routes ft k' d ∨ (k' = k ∧ d ∈ v) := by
  unfold routes
  rw [alLookup_mergeInto]
  by_cases hk : k' = k
  · subst hk
    rw [if_pos rfl]
    cases halk : alLookup k' ft with
    | none => simp [mem_pySetOfList]
    | some cur =>
      simp only [Option.some.injEq, exists_eq_left', mem_foldl_pyOrderedSetAdd]
      tauto
  · simp [hk]

theorem routes_foldl_mergeInto (t ft : List (String × List String)) (k d : String) :
    routes (t.foldl (fun ft2 p => mergeInto ft2 p.1 p.2) ft) k d ↔
      routes ft k d ∨ ∃ p ∈ t, p.1 = k ∧ d ∈ p.2 := by
  induction t generalizing ft with
  | nil => simp
  | cons p ps ih =>
    simp only [List.foldl_cons, ih, routes_mergeInto, List.mem_cons]
    constructor
    · rintro ((h | ⟨hk, hd⟩) | ⟨q, hq, hk, hd⟩)
      · exact Or.inl h
      · exact Or.inr ⟨p, Or.inl rfl, hk.symm, hd⟩
      · exact Or.inr ⟨q, Or.inr hq, hk, hd⟩
    · rintro (h | ⟨q, (rfl | hq), hk, hd⟩)
      · exact Or.inl (Or.inl h)
      · exact Or.inl (Or.inr ⟨hk.symm, hd⟩)
      · exact Or.inr ⟨q, hq, hk, hd⟩

theorem routes_nil (k d : String) : ¬ routes [] k d := by
  rintro ⟨v, hv, _⟩
  cases hv

theorem routes_flowtable (tables : List (List (String × List String))) (k d : String) :
    routes (flowtable tables) k d ↔ ∃ t ∈ tables, ∃ p ∈ t, p.1 = k ∧ d ∈ p.2 := by
  unfold flowtable
  have main : ∀ (ts : List (List (String × List String))) (ft : List (String × List String)),
      routes (ts.foldl (fun f t => t.foldl (fun ft2 p => mergeInto ft2 p.1 p.2) f) ft) k d ↔
        routes ft k d ∨ ∃ t ∈ ts, ∃ p ∈ t, p.1 = k ∧ d ∈ p.2 := by
    intro ts
    induction ts with
    | nil => simp
    | cons t ts ih =>
      intro ft
      simp only [List.foldl_cons, ih, routes_foldl_mergeInto, List.mem_cons]
      constructor
      · rintro ((h | ⟨p, hp, hk, hd⟩) | ⟨u, hu, p, hp, hk, hd⟩)
        · exact Or.inl h
        · exact Or.inr ⟨t, Or.inl rfl, p, hp, hk, hd⟩
        · exact Or.inr ⟨u, Or.inr hu, p, hp, hk, hd⟩
      · rintro (h | ⟨u, (rfl | hu), p, hp, hk, hd⟩)
        · exact Or.inl (Or.inl h)
        · exact Or.inl (Or.inr ⟨p, hp, hk, hd⟩)
        · exact Or.inr ⟨u, hu, p, hp, hk, hd⟩
  rw [main]
  simp [routes_nil]

theorem mem_alUpdate (k : String) (v : List String) (t : List (String × List String))
    (p : String × List String) (hp : p ∈ alUpdate k v t) : p = (k, v) ∨ p ∈ t := by
  induction t with
  | nil => cases hp
  | cons q qs ih =>
    simp only [alUpdate, List.mem_cons] at hp
    rcases hp with hp | hp
    · by_cases hq : q.1 = k
      · rw [if_pos hq] at hp
        exact Or.inl hp
      · rw [if_neg hq] at hp
        exact Or.inr (List.mem_cons.mpr (Or.inl hp))
    · rcases ih hp with h | h
      · exact Or.inl h
      · exact Or.inr (List.mem_cons.mpr (Or.inr h))

theorem mem_alUpdate_same_val (t : List (String × List String)) (k s : String)
    (v : List String) (h : (k, v) ∈ t) : (k, v) ∈ alUpdate s v t := by
  induction t with
  | nil => cases h
  | cons q qs ih =>
    simp only [alUpdate, List.mem_cons]
    rcases List.mem_cons.mp h with rfl | hq
    · by_cases h1 : (k, v).1 = s
      · rw [if_pos h1]
        simp only at h1
        subst h1
        exact Or.inl rfl
      · rw [if_neg h1]
        exact Or.inl rfl
    · exact Or.inr (ih hq)

theorem mem_pyDictInsert (d : List (String × List String)) (k : String)
    (v : List String) (p : String × List String) (hp : p ∈ pyDictInsert d k v) :
    p = (k, v) ∨ p ∈ d := by
  unfold pyDictInsert at hp
  cases h : alLookup k d with
  | some w =>
    rw [h] at hp
    exact mem_alUpdate k v d p hp
  | none =>
    rw [h] at hp
    rcases List.mem_append.mp hp with h' | h'
    · exact Or.inr h'
    · simp only [List.mem_singleton] at h'
      exact Or.inl h'

theorem pyDictInsert_keeps (d : List (String × List String)) (k s : String)
    (v : List String) (h : (k, v) ∈ d) : (k, v) ∈ pyDictInsert d s v := by
  unfold pyDictInsert
  cases hl : alLookup s d with
  | none => exact List.mem_append_left _ h
  | some w => exact mem_alUpdate_same_val d k s v h

theorem pyDictInsert_self (d : List (String × List String)) (k : String)
    (v : List String) : (k, v) ∈ pyDictInsert d k v := by
  unfold pyDictInsert
  cases hl : alLookup k d with
  | none => exact List.mem_append_right _ (List.mem_singleton.mpr rfl)
  | some w =>
    induction d with
    | nil => cases hl
    | cons q qs ih =>
      simp only [alUpdate, List.mem_cons]
      by_cases hq : q.1 = k
      · rw [if_pos hq]
        exact Or.inl rfl
      · rw [if_neg hq]
        simp only [alLookup, if_neg hq] at hl
        exact Or.inr (ih hl)

theorem mem_assemble_flowtable (f : Fields) (p : String × List String) :
    p ∈ assemble_flowtable f ↔ p.1 ∈ src_list f ∧ p.2 = dst_list f := by
  unfold assemble_flowtable
  constructor
  · have main : ∀ (src : List String) (t0 : List (String × List String)),
        (∀ q ∈ t0, q.1 ∈ src_list f ∧ q.2 = dst_list f) →
        (∀ s ∈ src, s ∈ src_list f) →
        ∀ q ∈ src.foldl (fun t s => pyDictInsert t s (dst_list f)) t0,
          q.1 ∈ src_list f ∧ q.2 = dst_list f := by
      intro src
      induction src with
      | nil => intro t0 h0 _ q hq; exact h0 q hq
      | cons s ss ih =>
        intro t0 h0 hsrc q hq
        refine ih (pyDictInsert t0 s (dst_list f)) ?_ (fun x hx => hsrc x (List.mem_cons.mpr (Or.inr hx))) q hq
        intro r hr
        rcases mem_pyDictInsert t0 s (dst_list f) r hr with rfl | hr'
        · exact ⟨hsrc s (List.mem_cons.mpr (Or.inl rfl)), rfl⟩
        · exact h0 r hr'
    intro hp
    exact main (src_list f) [] (by intro q hq; cases hq) (fun s hs => hs) p hp
  · rintro ⟨hk, hv⟩
    obtain ⟨a, b⟩ := p
    simp only at hk hv
    subst hv
    have main : ∀ (src : List String) (t0 : List (String × List String)),
        a ∈ src ∨ (a, dst_list f) ∈ t0 →
        (a, dst_list f) ∈ src.foldl (fun t s => pyDictInsert t s (dst_list f)) t0 := by
      intro src
      induction src with
      | nil =>
        rintro t0 (h | h)
        · cases h
        · exact h
      | cons s ss ih =>
        rintro t0 (h | h)
        · rcases List.mem_cons.mp h with rfl | hs
          · exact ih _ (Or.inr (pyDictInsert_self t0 a (dst_list f)))
          · exact ih _ (Or.inl hs)
        · exact ih _ (Or.inr (pyDictInsert_keeps t0 a s (dst_list f) h))
    exact main (src_list f) [] (Or.inl hk)


theorem detect_loop_ok_iff (ft : List (String × List String)) :
    detect_loop ft = .ok () ↔ ∀ p ∈ ft, p.1 ∉ p.2 := by
  induction ft with
  | nil => simp [detect_loop]
  | cons p ps ih =>
    by_cases h : p.1 ∈ p.2
    · simp [detect_loop, h]
    · simp [detect_loop, h, ih]

theorem detect_loop_error_of_loop (ft : List (String × List String))
    (h : ∃ p ∈ ft, p.1 ∈ p.2) :
    ∃ m, detect_loop ft = .error (PyErr.conferr m) := by
  induction ft with
  | nil => simp at h
  | cons p ps ih =>
    by_cases hp : p.1 ∈ p.2
    · exact ⟨"Loops detected: " ++ p.1 ++ " --> " ++ p.1, by simp [detect_loop, hp]⟩
    · obtain ⟨q, hq, hq2⟩ := h
      rcases List.mem_cons.mp hq with rfl | hq'
      · exact absurd hq2 hp
      · obtain ⟨m, hm⟩ := ih ⟨q, hq', hq2⟩
        exact ⟨m, by simp [detect_loop, hp, hm]⟩

theorem hosts_loop_error_iff (toks acc : List String) :
    (∃ e, hosts_loop acc toks = .error e) ↔
      ∃ t ∈ toks, valid_hostname (name_part t) = false := by
  induction toks generalizing acc with
  | nil => simp [hosts_loop]
  | cons t rest ih =>
    by_cases hv : valid_hostname (name_part t) = true
    · simp only [hosts_loop, if_pos hv, ih, List.mem_cons]
      constructor
      · rintro ⟨u, hu, hf⟩
        exact ⟨u, Or.inr hu, hf⟩
      · rintro ⟨u, hu, hf⟩
        rcases hu with rfl | hu
        · rw [hv] at hf
          cases hf
        · exact ⟨u, hu, hf⟩
    · have hv' : valid_hostname (name_part t) = false := by
        revert hv
        cases valid_hostname (name_part t) <;> simp
      rw [hosts_loop, if_neg hv]
      constructor
      · intro _
        exact ⟨t, List.mem_cons.mpr (Or.inl rfl), hv'⟩
      · intro _
        exact ⟨_, rfl⟩

theorem hosts_loop_error_shape (toks acc : List String) (e : PyErr)
    (h : hosts_loop acc toks = .error e) :
    ∃ n, e = PyErr.conferr ("Invalid hostname: " ++ n) := by
  induction toks generalizing acc with
  | nil => simp [hosts_loop] at h
  | cons t rest ih =>
    by_cases hv : valid_hostname (name_part t) = true
    · rw [hosts_loop, if_pos hv] at h
      exact ih _ h
    · rw [hosts_loop, if_neg hv] at h
      exact ⟨name_part t, by injection h with h'; rw [← h']⟩

theorem consumer_file_writes_foldr (payloads : List String) (init : String) :
    consumer_file_writes init payloads =
      init ++ payloads.foldr (fun d acc => d ++ "\n" ++ acc) "" := by
  induction payloads generalizing init with
  | nil => simp [consumer_file_writes]
  | cons d ds ih =>
    simp only [consumer_file_writes, List.foldl_cons, List.foldr_cons] at *
    rw [ih (init ++ d ++ "\n")]
    simp [String.append_assoc]

theorem build_sink_all_wb (dests : List String) :
    ((build_sink dests).2.all (fun q => q.2 == PyFileMode.wb)) = true := by
  unfold build_sink
  have main : ∀ (ds : List String) (acc : List String × List (String × PyFileMode)),
      (acc.2.all (fun q => q.2 == PyFileMode.wb)) = true →
      (((ds.foldl
          (fun acc d =>
            if starts_with_file_scheme d then
              (acc.1, acc.2 ++ [((remove_file_scheme d.toList).asString, PyFileMode.wb)])
            else (pyOrderedSetAdd acc.1 d, acc.2))
          acc).2).all (fun q => q.2 == PyFileMode.wb)) = true := by
    intro ds
    induction ds with
    | nil => exact fun acc h => h
    | cons d ds ih =>
      intro acc h
      by_cases hd : starts_with_file_scheme d = true
      · refine ih _ ?_
        simp only [hd, if_pos, List.all_append, Bool.and_eq_true]
        exact ⟨h, rfl⟩
      · refine ih _ ?_
        simp only [if_neg hd]
        exact h
  exact main dests ([], []) (by decide)

theorem starts_with_file_scheme_append (p : String) :
    starts_with_file_scheme ("file://" ++ p) = true := by
  cases p with
  | mk data => rfl

theorem packet_str_data_cons (f s : Nat) (header msg : String) :
    ∃ L, (packet_str (pri_str f s) header msg).data = '<' :: L := by
  unfold packet_str pri_str py_take
  cases hrepr : Nat.repr (f + s) with
  | mk rdata =>
    cases header with
    | mk hdata =>
      cases msg with
      | mk mdata =>
        refine ⟨(rdata ++ '>' :: hdata ++ ' ' :: mdata).take 1023, ?_⟩
        have h1 : ((("<" ++ String.mk rdata ++ ">" ++ String.mk hdata ++ " " ++
            String.mk mdata) : String)).toList =
            '<' :: (rdata ++ '>' :: hdata ++ ' ' :: mdata) := by
          simp [String.toList, String.data_append]
        rw [h1]
        have h2 : MAX_LEN = 1023 + 1 := rfl
        rw [h2, List.take_succ_cons]
        rfl

theorem alLookup_mem (k : String) (ft : List (String × List String))
    (cur : List String) (h : alLookup k ft = some cur) : (k, cur) ∈ ft := by
  induction ft with
  | nil => cases h
  | cons p ps ih =>
    by_cases hp : p.1 = k
    · rw [alLookup, if_pos hp] at h
      injection h with h
      exact List.mem_cons.mpr (Or.inl (by rw [← hp, ← h]))
    · rw [alLookup, if_neg hp] at h
      exact List.mem_cons.mpr (Or.inr (ih h))

theorem nodup_pyOrderedSetAdd (l : List String) (x : String) (h : l.Nodup) :
    (pyOrderedSetAdd l x).Nodup := by
  unfold pyOrderedSetAdd
  by_cases hx : x ∈ l
  · rw [if_pos hx]
    exact h
  · rw [if_neg hx]
    refine List.Nodup.append h (List.nodup_singleton x) ?_
    intro a ha hax
    rw [List.mem_singleton.mp hax] at ha
    exact hx ha

theorem nodup_foldl_pyOrderedSetAdd (v acc : List String) (h : acc.Nodup) :
    (v.foldl pyOrderedSetAdd acc).Nodup := by
  induction v generalizing acc with
  | nil => exact h
  | cons x xs ih => exact ih _ (nodup_pyOrderedSetAdd _ _ h)

theorem mergeInto_values_nodup (ft : List (String × List String)) (k : String)
    (v : List String) (h : ∀ p ∈ ft, p.2.Nodup) :
    ∀ p ∈ mergeInto ft k v, p.2.Nodup := by
  unfold mergeInto
  cases hl : alLookup k ft with
  | none =>
    intro p hp
    rcases List.mem_append.mp hp with hp | hp
    · exact h p hp
    · rw [List.mem_singleton.mp hp]
      exact nodup_foldl_pyOrderedSetAdd v [] List.nodup_nil
  | some cur =>
    intro p hp
    rcases mem_alUpdate _ _ _ _ hp with hpk | hp'
    · rw [hpk]
      exact nodup_foldl_pyOrderedSetAdd v cur (h _ (alLookup_mem k ft cur hl))
    · exact h p hp'

theorem flowtable_values_nodup (tables : List (List (String × List String))) :
    ∀ p ∈ flowtable tables, p.2.Nodup := by
  unfold flowtable
  have inner : ∀ (t ft : List (String × List String)), (∀ p ∈ ft, p.2.Nodup) →
      ∀ p ∈ t.foldl (fun ft2 q => mergeInto ft2 q.1 q.2) ft, p.2.Nodup := by
    intro t
    induction t with
    | nil => exact fun ft h => h
    | cons q qs ih => exact fun ft h => ih _ (mergeInto_values_nodup ft q.1 q.2 h)
  have outer : ∀ (ts : List (List (String × List String)))
      (ft : List (String × List String)), (∀ p ∈ ft, p.2.Nodup) →
      ∀ p ∈ ts.foldl (fun f t => t.foldl (fun ft2 q => mergeInto ft2 q.1 q.2) f) ft,
        p.2.Nodup := by
    intro ts
    induction ts with
    | nil => exact fun ft h => h
    | cons t ts ih => exact fun ft h => ih _ (inner t ft h)
  exact outer tables [] (by intro p hp; cases hp)

/-! ### Claim theorems -/

/-- C1 — the claim says the dispatch task constructs a syslog `Packet`
from the payload and sends the serialized `Packet` as the UDP datagram
body.  The code instead hands the bare payload string to
`Syslog.send_packet`, so `str(packet)` is the payload itself: at the
failing input (payload `hello`, one destination `localhost:666`) the
datagram body is exactly `hello`, and no serialized `Packet` (which
always starts with the `<` of its PRI part) can equal it. -/
theorem C1_dispatch_sends_bare_payload :
    message_consumer_net ["localhost:666"] "hello" = [(("localhost", 666), "hello")] ∧
    ∀ (f s : Nat) (header msg : String),
      packet_str (pri_str f s) header msg ≠ "hello" := by
  constructor
  · decide
  · intro f s header msg hEq
    obtain ⟨L, hL⟩ := packet_str_data_cons f s header msg
    rw [hEq] at hL
    have hh : ("hello" : String).data = ['h', 'e', 'l', 'l', 'o'] := rfl
    rw [hh] at hL
    injection hL with h1 _
    exact absurd h1 (by decide)

/-- C2 counterexample — two rules both naming source `localhost:514` with
the same destination `10.0.0.1:514`: the claim predicts the concatenated
list with the duplicate preserved, but the merged flow table holds the
deduplicated singleton. -/
theorem C2_counterexample :
    alLookup "localhost:514"
        (flowtable [[("localhost:514", ["10.0.0.1:514"])],
                    [("localhost:514", ["10.0.0.1:514"])]]) =
      some ["10.0.0.1:514"] ∧
    some ["10.0.0.1:514"] ≠ some (["10.0.0.1:514"] ++ ["10.0.0.1:514"]) := by
  decide

/-- C2 (amended) — the merged `RoutingTable` maps a source key `k` to a
DEDUPLICATED collection of destinations: `d` is routed from `k` exactly
when some rule lists `k` among its sources and `d` among its
destinations, and every merged destination list is duplicate-free (the
merge goes through Python sets; the claim's concatenation-in-rule-order
with duplicates preserved does not hold). -/
theorem C2_merge_deduplicates (fieldss : List Fields) (k d : String) :
    (routes (flowtable (fieldss.map assemble_flowtable)) k d ↔
      ∃ f ∈ fieldss, k ∈ src_list f ∧ d ∈ dst_list f) ∧
    ∀ p ∈ flowtable (fieldss.map assemble_flowtable), p.2.Nodup := by
  constructor
  · rw [routes_flowtable]
    constructor
    · rintro ⟨t, ht, p, hp, hk, hd⟩
      obtain ⟨f, hf, rfl⟩ := List.mem_map.mp ht
      obtain ⟨h1, h2⟩ := (mem_assemble_flowtable f p).mp hp
      subst hk
      rw [h2] at hd
      exact ⟨f, hf, h1, hd⟩
    · rintro ⟨f, hf, h1, h2⟩
      exact ⟨assemble_flowtable f, List.mem_map_of_mem _ hf, (k, dst_list f),
        (mem_assemble_flowtable f _).mpr ⟨h1, rfl⟩, rfl, h2⟩
  · exact flowtable_values_nodup _

/-- C2 witness — the amended characterization applied to the demo rule:
`localhost:514` routes to `10.0.0.1:514`, and the merged values are
duplicate-free. -/
theorem C2_merge_deduplicates_witness :
    routes (flowtable ([fields_demo].map assemble_flowtable))
      "localhost:514" "10.0.0.1:514" ∧
    ∀ p ∈ flowtable ([fields_demo].map assemble_flowtable), p.2.Nodup :=
  ⟨(C2_merge_deduplicates [fields_demo] "localhost:514" "10.0.0.1:514").1.mpr
      ⟨fields_demo, by decide, by decide, by decide⟩,
    (C2_merge_deduplicates [fields_demo] "localhost:514" "10.0.0.1:514").2⟩

/-- C3 counterexample — a rule with BOTH a port-based source
(`src.host = localhost:514`) and a file source (`src.file = in.dat`):
construction does not fail with any error; it succeeds and registers both
endpoints as sources of the rule's destinations. -/
theorem C3_counterexample :
    rlconfig_build "/etc"
        [("rule1", ⟨some "localhost:514", some "in.dat", some "10.0.0.1", none⟩)] =
      .ok [[("localhost:514", ["10.0.0.1:514"]),
            ("file:///etc/in.dat", ["10.0.0.1:514"])]] := by
  decide

/-- C3 (amended) — no `ConflictingSource` check exists: a rule in which
both a port-based source and a file source are present (and both resolve,
and some destination is present) is accepted, and `_get_section_values`
returns both sources; construction of the routing table proceeds. -/
theorem C3_both_sources_accepted (basedir sname : String) (sec : SectionOpts)
    (a b : String) (hosts : List String) (fp : String)
    (dh df : Option (List String))
    (hsh : sec.src_host = some a) (hsf : sec.src_file = some b)
    (hh : get_hosts_from_names a = .ok hosts)
    (hf : get_abs_filepath basedir b = .ok fp)
    (hdh : opt_hosts sec.dst_host = .ok dh)
    (hdf : opt_file basedir sec.dst_file = .ok df)
    (hdst : ¬(dh = none ∧ df = none)) :
    get_section_values basedir sname sec = .ok ⟨some hosts, some [fp], dh, df⟩ := by
  have h1 : opt_hosts sec.src_host = .ok (some hosts) := by
    rw [hsh]
    simp only [opt_hosts]
    rw [hh]
    rfl
  have h2 : opt_file basedir sec.src_file = .ok (some [fp]) := by
    rw [hsf]
    simp only [opt_file]
    rw [hf]
    rfl
  unfold get_section_values
  simp only [h1, h2, hdh, hdf]
  show (if dh = none ∧ df = none then
      Except.error (PyErr.conferr ("Section \"" ++ sname ++ "\" gets no destinations"))
    else Except.ok (Fields.mk (some hosts) (some [fp]) dh df)) =
      Except.ok (Fields.mk (some hosts) (some [fp]) dh df)
  rw [if_neg hdst]

/-- C3 witness — the amended statement at a concrete section with both
sources present. -/
theorem C3_both_sources_accepted_witness :
    get_section_values "/etc" "rule1"
        ⟨some "localhost:514", some "in.dat", some "10.0.0.1", none⟩ =
      .ok ⟨some ["localhost:514"], some ["file:///etc/in.dat"],
           some ["10.0.0.1:514"], none⟩ :=
  C3_both_sources_accepted "/etc" "rule1" _ "localhost:514" "in.dat"
    ["localhost:514"] "file:///etc/in.dat" (some ["10.0.0.1:514"]) none
    rfl rfl (by decide) (by decide) (by decide) (by decide) (by decide)

/-- C4 counterexample — the claim lists `999.1.1.1` among the names that
fail validation with `InvalidHostname`; in fact every digit run is a
valid hostname label, so `999.1.1.1` matches the hostname-label grammar,
passes `valid_hostname`, and `_get_hosts_from_names` accepts it. -/
theorem C4_counterexample :
    valid_hostname "999.1.1.1" = true ∧
    get_hosts_from_names "999.1.1.1" = .ok ["999.1.1.1:514"] := by
  decide

/-- C4 (amended) — host-name validation succeeds exactly when the name
part matches the IPv4 grammar or the hostname-label grammar, in each
case optionally followed by one trailing newline (Python `re`'s `$` also
matches just before a newline ending the string): `_get_hosts_from_names`
raises exactly when some comma-separated, stripped token has a name part
failing `valid_hostname`, and every such error is an `Invalid hostname`
`conferr`.  `-bad.host` and `host_name` fail; `999.1.1.1` matches the
hostname-label grammar and succeeds; so do the newline-carrying names
`"a\n"` and `"1.2.3.4\n"` (reachable via a token such as `"a\n:514"`,
which survives `strip()`), while `"a\n\n"` fails. -/
theorem C4_hostname_grammar (names : String) :
    ((∃ e, get_hosts_from_names names = .error e) ↔
      ∃ t ∈ (py_split ',' names).map py_strip, valid_hostname (name_part t) = false) ∧
    (∀ e, get_hosts_from_names names = .error e →
      ∃ n, e = PyErr.conferr ("Invalid hostname: " ++ n)) ∧
    valid_hostname "-bad.host" = false ∧
    valid_hostname "host_name" = false ∧
    valid_hostname "999.1.1.1" = true ∧
    valid_hostname "a\n" = true ∧
    valid_hostname "1.2.3.4\n" = true ∧
    valid_hostname "a\n\n" = false ∧
    get_hosts_from_names "a\n:514" = .ok ["a\n:514"] := by
  refine ⟨hosts_loop_error_iff _ [], ?_, by decide, by decide, by decide,
    by decide, by decide, by decide, by decide⟩
  intro e he
  exact hosts_loop_error_shape _ [] e he

/-- C4 witness — the amended statement instantiated at the name
`-bad.host`. -/
theorem C4_hostname_grammar_witness :
    ((∃ e, get_hosts_from_names "-bad.host" = .error e) ↔
      ∃ t ∈ (py_split ',' "-bad.host").map py_strip,
        valid_hostname (name_part t) = false) ∧
    (∀ e, get_hosts_from_names "-bad.host" = .error e →
      ∃ n, e = PyErr.conferr ("Invalid hostname: " ++ n)) ∧
    valid_hostname "-bad.host" = false ∧
    valid_hostname "host_name" = false ∧
    valid_hostname "999.1.1.1" = true ∧
    valid_hostname "a\n" = true ∧
    valid_hostname "1.2.3.4\n" = true ∧
    valid_hostname "a\n\n" = false ∧
    get_hosts_from_names "a\n:514" = .ok ["a\n:514"] :=
  C4_hostname_grammar "-bad.host"

/-- C5 counterexample — the claim says the serialized `Packet` is
`PRI ++ " " ++ HEADER ++ " " ++ MSG` (truncated); the code writes
`"%s%s %s"`, with NO space between PRI and HEADER, so at a concrete
packet the two differ. -/
theorem C5_counterexample :
    packet_str (pri_str 1 6) "Jun  1 18:34:03 myhost" "prog: hi" ≠
      py_take MAX_LEN
        (pri_str 1 6 ++ " " ++ "Jun  1 18:34:03 myhost" ++ " " ++ "prog: hi") := by
  decide

/-- C5 (amended) — the serialized `Packet` is the PRI string immediately
followed by the HEADER string (no separator), a space, and the MSG
string, truncated to at most 1024 characters; in particular its length
never exceeds `MAX_LEN`. -/
theorem C5_packet_layout (pri header msg : String) :
    packet_str pri header msg = py_take MAX_LEN (pri ++ header ++ " " ++ msg) ∧
    (packet_str pri header msg).length ≤ MAX_LEN := by
  refine ⟨rfl, ?_⟩
  have h1 : ∀ l : List Char, (List.asString l).length = l.length := fun _ => rfl
  unfold packet_str py_take
  rw [h1]
  rw [List.length_take]
  exact min_le_left _ _

/-- C6 — for facilities 0..23 and severities 0..7 the PRI part serializes
as `"<value>"` where `value = facility + severity` (plain addition); for
every non-zero facility this differs from RFC 3164's
`facility*8 + severity`. -/
theorem C6_pri_is_addition (facility severity : Nat)
    (hf : facility ≤ 23) (hs : severity ≤ 7) :
    pri_str facility severity = "<" ++ Nat.repr (facility + severity) ++ ">" ∧
    (0 < facility → facility + severity ≠ facility * 8 + severity) := by
  exact ⟨rfl, by omega⟩

/-- C6 witness — the PRI equality at facility 16 (`LOCAL0`), severity 5
(`NOTICE`). -/
theorem C6_pri_is_addition_witness :
    pri_str 16 5 = "<" ++ Nat.repr (16 + 5) ++ ">" ∧
    (0 < 16 → 16 + 5 ≠ 16 * 8 + 5) :=
  C6_pri_is_addition 16 5 (by decide) (by decide)

/-- C7 — when the per-rule tables parse successfully, construction
succeeds exactly when no source key of the merged flow table occurs in
its own merged destination list; when some key does, construction fails
with the `Loops detected` configuration error.  (Transitive cycles have
no such key and are therefore not detected.) -/
theorem C7_direct_loop_detection (basedir : String)
    (sections : List (String × SectionOpts))
    (tables : List (List (String × List String)))
    (hp : parse_tables basedir sections = .ok tables) :
    (rlconfig_build basedir sections = .ok tables ↔
      ∀ p ∈ flowtable tables, p.1 ∉ p.2) ∧
    ((∃ p ∈ flowtable tables, p.1 ∈ p.2) →
      ∃ m, rlconfig_build basedir sections = .error (PyErr.conferr m)) := by
  have hbuild : rlconfig_build basedir sections =
      match detect_loop (flowtable tables) with
      | .error e => .error e
      | .ok _ => .ok tables := by
    unfold rlconfig_build
    rw [hp]
    rfl
  constructor
  · rw [hbuild]
    cases hd : detect_loop (flowtable tables) with
    | ok u =>
      cases u
      constructor
      · intro _
        exact (detect_loop_ok_iff _).mp hd
      · intro _
        rfl
    | error e =>
      constructor
      · intro h
        cases h
      · intro hall
        have hok := (detect_loop_ok_iff (flowtable tables)).mpr hall
        rw [hd] at hok
        cases hok
  · intro hex
    obtain ⟨m, hm⟩ := detect_loop_error_of_loop _ hex
    exact ⟨m, by rw [hbuild, hm]⟩

/-- C7 witness — a transitive cycle (a → b, b → a) passes construction
untouched, while a direct self-loop (a → a) fails with the
`Loops detected` error. -/
theorem C7_direct_loop_detection_witness :
    rlconfig_build "" sections_cycle = .ok tables_cycle ∧
    ∃ m, rlconfig_build "" sections_selfloop = .error (PyErr.conferr m) := by
  constructor
  · exact (C7_direct_loop_detection "" sections_cycle tables_cycle (by decide)).1.mpr
      (by decide)
  · exact (C7_direct_loop_detection "" sections_selfloop tables_selfloop (by decide)).2
      (by decide)

/-- C8 counterexample — the claim says sink files are opened in APPEND
mode; the `RLServer.flowtable` setter opens them with `open(path, 'wb')`,
which truncates: with pre-existing content `old\n` and one dispatched
payload `hello`, the file ends up holding `hello\n`, not
`old\nhello\n`. -/
theorem C8_counterexample :
    (build_sink ["file:///tmp/out.dat"]).2 = [("/tmp/out.dat", PyFileMode.wb)] ∧
    sink_file_content PyFileMode.wb "old\n" ["hello"] = "hello\n" ∧
    sink_file_content PyFileMode.wb "old\n" ["hello"] ≠ "old\n" ++ "hello\n" := by
  decide

/-- C8 (amended) — every sink file handle is opened once with mode `wb`
(truncating write, not append) for the process lifetime; each dispatched
message appends `payload + "\n"` to the handle and flushes, so after
dispatching a payload sequence the file holds exactly the concatenation
of `payload + "\n"` in dispatch order, with the pre-existing content
discarded.  (That each individual write is flushed immediately is a
liveness property of the runtime, not statable on final contents.) -/
theorem C8_sink_write_semantics (dests : List String) (existing : String)
    (payloads : List String) :
    ((build_sink dests).2.all (fun q => q.2 == PyFileMode.wb)) = true ∧
    sink_file_content PyFileMode.wb existing payloads =
      payloads.foldr (fun d acc => d ++ "\n" ++ acc) "" := by
  refine ⟨build_sink_all_wb dests, ?_⟩
  unfold sink_file_content py_open_content
  rw [consumer_file_writes_foldr]
  exact String.empty_append _

/-- C9 — building the routing table twice from the same descriptor list
yields identical results: the same per-rule tables and the same merged
flow table (the whole pipeline is a pure function of the descriptors; the
only ordering freedom in CPython, set iteration order, is itself fixed
for a fixed build). -/
theorem C9_build_deterministic (basedir : String)
    (sections : List (String × SectionOpts))
    (t1 t2 : List (List (String × List String)))
    (h1 : rlconfig_build basedir sections = .ok t1)
    (h2 : rlconfig_build basedir sections = .ok t2) :
    t1 = t2 ∧ flowtable t1 = flowtable t2 := by
  have h := h1.symm.trans h2
  injection h with h
  exact ⟨h, by rw [h]⟩

/-- C9 witness — two builds of the demo configuration agree. -/
theorem C9_build_deterministic_witness :
    tables_demo = tables_demo ∧ flowtable tables_demo = flowtable tables_demo :=
  C9_build_deterministic "/etc" sections_demo tables_demo tables_demo
    (by decide) (by decide)

/-- C10 — file-path canonicalization is not total: `_get_abs_filepath`
raises `IndexError` exactly when the path left after stripping a leading
`file://` is empty (so on `""` and on the bare `"file://"`), and for
every non-empty stripped path it returns a `file://`-prefixed result. -/
theorem C10_filepath_partiality (basedir ifile : String) :
    (get_abs_filepath basedir ifile = .error PyErr.indexError ↔
      drop_file_scheme ifile = "") ∧
    (drop_file_scheme ifile ≠ "" →
      ∃ r, get_abs_filepath basedir ifile = .ok r ∧
        starts_with_file_scheme r = true) := by
  cases hs : (drop_file_scheme ifile).data with
  | nil =>
    have hempty : drop_file_scheme ifile = "" := String.ext hs
    have hval : get_abs_filepath basedir ifile = .error PyErr.indexError := by
      unfold get_abs_filepath
      rw [hempty]
      rfl
    exact ⟨⟨fun _ => hempty, fun _ => hval⟩, fun hne => absurd hempty hne⟩
  | cons c cs =>
    have hdrop : drop_file_scheme ifile = String.mk (c :: cs) := String.ext hs
    have hgoal : get_abs_filepath basedir ifile =
        if c = '/' then .ok ("file://" ++ String.mk (c :: cs))
        else .ok ("file://" ++ ospath_join basedir (String.mk (c :: cs))) := by
      unfold get_abs_filepath
      rw [hdrop]
      rfl
    have hmkne : drop_file_scheme ifile ≠ "" := by
      rw [hdrop]
      intro he
      exact List.noConfusion (congrArg String.data he : c :: cs = ([] : List Char))
    constructor
    · rw [hgoal]
      constructor
      · intro herr
        by_cases hc : c = '/'
        · rw [if_pos hc] at herr
          exact Except.noConfusion herr
        · rw [if_neg hc] at herr
          exact Except.noConfusion herr
      · intro he
        exact absurd he hmkne
    · intro _
      rw [hgoal]
      by_cases hc : c = '/'
      · rw [if_pos hc]
        exact ⟨_, rfl, starts_with_file_scheme_append _⟩
      · rw [if_neg hc]
        exact ⟨_, rfl, starts_with_file_scheme_append _⟩

/-- C10 witness — the bare scheme `file://` raises `IndexError`, and a
relative path resolves to a `file://`-prefixed result. -/
theorem C10_filepath_partiality_witness :
    (get_abs_filepath "/etc" "file://" = .error PyErr.indexError ↔
      drop_file_scheme "file://" = "") ∧
    (drop_file_scheme "in.dat" ≠ "" →
      ∃ r, get_abs_filepath "/etc" "in.dat" = .ok r ∧
        starts_with_file_scheme r = true) :=
  ⟨(C10_filepath_partiality "/etc" "file://").1,
    (C10_filepath_partiality "/etc" "in.dat").2⟩

end Relogger
